import Mathlib

/-!
Verification of the period-scheduler core of the school-timetable widget.

The embedding translates the scheduler code from
`src/utils/settings_manager.py` (`get_current_period`, `load_time_settings`,
`save_time_settings`) and `src/gui/widget.py` (`update_current_period`,
`set_next_update_timer`).

Modelling conventions:
* A `QTime` value is the number of milliseconds since midnight (a `Nat`,
  `0 ≤ t < 86400000` for valid wall-clock times).
* A Python `dict` is an insertion-ordered association list; assignment to an
  existing key replaces the value in place, assignment to a fresh key appends.
* Python `int` is `Int`.
* `None` and fallible results are `Option`.
-/

namespace Timetable

/-- One entry of `SettingsManager.time_ranges`: the dict
`{"start": QTime, "end": QTime}`.  `startT` / `endT` are the `"start"` /
`"end"` QTime values in milliseconds since midnight. -/
structure TimeRange where
  startT : Nat
  endT : Nat
deriving DecidableEq, Repr

/-- Model of `SettingsManager.time_ranges`: a Python dict from the integer period id to
its time range, modelled as an insertion-ordered association list. -/
abbrev Table := List (Int × TimeRange)

/-- Model of `QTime.msecsTo`: signed difference `b − a` in milliseconds. -/
def msecsTo (a b : Nat) : Int := (b : Int) - (a : Int)

/-- Model of `QTime.addSecs`: add `s` seconds to a time of day, wrapping around
midnight (Qt semantics). -/
def addSecs (t : Nat) (s : Int) : Nat :=
  (((t : Int) + s * 1000).emod 86400000).toNat

/-- Whether the closed interval of `r` contains the instant `now`
(the test `start_time <= current_time <= end_time` of
`SettingsManager.get_current_period`). -/
def containsTime (r : TimeRange) (now : Nat) : Prop :=
  r.startT ≤ now ∧ now ≤ r.endT

instance (r : TimeRange) (now : Nat) : Decidable (containsTime r now) :=
  inferInstanceAs (Decidable (_ ∧ _))

/-- Model of `SettingsManager.get_current_period` (settings_manager.py:330-337):
scan `time_ranges` in iteration order; return the first period whose closed
interval `[start, end]` contains `current_time`; `None` when no interval
does. -/
def get_current_period (time_ranges : Table) (current_time : Nat) : Option Int :=
  match time_ranges with
  | [] => none
  | (period, r) :: rest =>
    if containsTime r current_time then some period
    else get_current_period rest current_time

/-- Python truthiness of `self.current_period` (`None` or an `int`):
`None` and `0` are falsy, every other int truthy. -/
def truthy (current_period : Option Int) : Bool :=
  match current_period with
  | none => false
  | some p => p != 0

/-- Model of `next_period = (self.current_period or 0) + 1 if self.current_period != 7
else None` (widget.py:402).  `(x or 0)` evaluates to `0` for both `None` and
`0`, which `Option.getD 0` reproduces. -/
def next_period_of (current_period : Option Int) : Option Int :=
  if current_period ≠ some 7 then some (current_period.getD 0 + 1) else none

/-- Reachability of `msec_to_end = now.msecsTo(current_end_time)`
(widget.py:394-397): requires `self.current_period` truthy and
`time_ranges.get(current_period, {}).get("end")` present; the value is the
signed remaining time to the current period's end. -/
def end_rem (now : Nat) (time_ranges : Table) (current_period : Option Int) :
    Option Int :=
  match current_period with
  | none => none
  | some p =>
    if p = 0 then none
    else match time_ranges.lookup p with
      | some r => some (msecsTo now r.endT)
      | none => none

/-- Reachability of `msec_to_start = now.msecsTo(next_start_time)`
(widget.py:403-406): requires `next_period` truthy with
`1 <= next_period <= 7` and a `"start"` entry for it. -/
def start_rem (now : Nat) (time_ranges : Table) (current_period : Option Int) :
    Option Int :=
  match next_period_of current_period with
  | none => none
  | some q =>
    if 1 ≤ q ∧ q ≤ 7 then
      match time_ranges.lookup q with
      | some r => some (msecsTo now r.startT)
      | none => none
    else none

/-- Reachability of `msec_to_warning` (widget.py:411-416): requires
`next_period` truthy, the warning flag on, and a `"start"` entry for the next
period; the value is the signed remaining time to
`next_start_time.addSecs(-warning_minutes * 60)`. -/
def warn_rem (now : Nat) (time_ranges : Table) (current_period : Option Int)
    (next_period_warning : Bool) (warning_minutes : Int) : Option Int :=
  match next_period_of current_period with
  | none => none
  | some q =>
    if q ≠ 0 ∧ next_period_warning then
      match time_ranges.lookup q with
      | some r => some (msecsTo now (addSecs r.startT (-(warning_minutes * 60))))
      | none => none
    else none

/-- The sequential `min` accumulation of widget.py:391-418 as a function of
the three blocks' reachable remaining times: starting from the 60000
baseline, each block takes a `min` with its candidate duration
(remaining + margin) when it was reached and its remaining time is strictly
positive (`if msec_to_... > 0`). -/
def pre_from (e s w : Option Int) : Int :=
  let n0 : Int := 60000
  let n1 := match e with
    | some d => if d > 0 then min n0 (d + 1000) else n0
    | none => n0
  let n2 := match s with
    | some d => if d > 0 then min n1 (d + 1000) else n1
    | none => n1
  match w with
  | some d => if d > 0 then min n2 (d + 500) else n2
  | none => n2

/-- Value of `next_update_msec` just before the 600000 clamp (widget.py:391-418). -/
def next_update_pre (now : Nat) (time_ranges : Table) (current_period : Option Int)
    (next_period_warning : Bool) (warning_minutes : Int) : Int :=
  pre_from (end_rem now time_ranges current_period)
    (start_rem now time_ranges current_period)
    (warn_rem now time_ranges current_period next_period_warning warning_minutes)

/-- Model of `next_update_msec = min(next_update_msec, 600000)` (widget.py:421): the
value Widget.set_next_update_timer computes and logs. -/
def set_next_update_timer (now : Nat) (time_ranges : Table)
    (current_period : Option Int) (next_period_warning : Bool)
    (warning_minutes : Int) : Int :=
  min (next_update_pre now time_ranges current_period next_period_warning warning_minutes)
    600000

/-- Model of `self.timer.setInterval(max(1000, next_update_msec))` (widget.py:425):
the duration the timer is actually armed with. -/
def timer_interval (now : Nat) (time_ranges : Table) (current_period : Option Int)
    (next_period_warning : Bool) (warning_minutes : Int) : Int :=
  max 1000
    (set_next_update_timer now time_ranges current_period next_period_warning
      warning_minutes)

/-- C3. The value the next-wakeup computation arms the timer with always lies
in the closed range [1000, 600000] milliseconds; in particular it is never
≤ 0 and never > 600000. -/
theorem c3_timer_interval_clamped (now : Nat) (time_ranges : Table)
    (current_period : Option Int) (next_period_warning : Bool)
    (warning_minutes : Int) :
    1000 ≤ timer_interval now time_ranges current_period next_period_warning
        warning_minutes ∧
    timer_interval now time_ranges current_period next_period_warning
        warning_minutes ≤ 600000 := by
  unfold timer_interval set_next_update_timer
  constructor
  · exact le_max_left _ _
  · exact max_le (by norm_num) (min_le_right _ _)

/-- C1. `evaluate` / `get_current_period` returns the id of the first period
(in table iteration order) whose closed interval contains `now` — inclusive at
exactly `start` and exactly `end` — and `none` exactly when no period's
interval contains `now`.  The function is total (absence of a match is the
normal `none` result, not an error). -/
theorem c1_get_current_period_first_match (now : Nat) (table : Table) :
    (get_current_period table now = none ↔
      ∀ e ∈ table, ¬ containsTime e.2 now) ∧
    (∀ p : Int, get_current_period table now = some p ↔
      ∃ r pre post, table = pre ++ (p, r) :: post ∧
        r.startT ≤ now ∧ now ≤ r.endT ∧
        ∀ e ∈ pre, ¬ containsTime e.2 now) := by
  induction table with
  | nil =>
    refine ⟨by simp [get_current_period], fun p => ?_⟩
    simp only [get_current_period]
    constructor
    · intro h; cases h
    · rintro ⟨r, pre, post, habs, -⟩
      exact absurd habs.symm (by simp)
  | cons hd tl ih =>
    obtain ⟨q, s⟩ := hd
    by_cases h : containsTime s now
    · constructor
      · simp only [get_current_period, if_pos h]
        constructor
        · intro hn; cases hn
        · intro hall
          exact absurd h (hall (q, s) (by simp))
      · intro p
        simp only [get_current_period, if_pos h]
        constructor
        · intro hp
          obtain rfl : q = p := by simpa using hp
          exact ⟨s, [], tl, by simp, h.1, h.2, by simp⟩
        · rintro ⟨r, pre, post, hsplit, h1, h2, hpre⟩
          cases pre with
          | nil =>
            simp only [List.nil_append, List.cons.injEq, Prod.mk.injEq] at hsplit
            obtain ⟨⟨hqp, -⟩, -⟩ := hsplit
            simp [← hqp]
          | cons e pre' =>
            simp only [List.cons_append, List.cons.injEq] at hsplit
            obtain ⟨rfl, -⟩ := hsplit
            exact absurd h (hpre (q, s) (by simp))
    · have step : get_current_period ((q, s) :: tl) now = get_current_period tl now := by
        simp [get_current_period, if_neg h]
      constructor
      · rw [step, ih.1]
        constructor
        · intro hall e he
          rcases List.mem_cons.mp he with rfl | he'
          · exact h
          · exact hall e he'
        · intro hall e he
          exact hall e (List.mem_cons_of_mem _ he)
      · intro p
        rw [step, ih.2 p]
        constructor
        · rintro ⟨r, pre, post, hsplit, h1, h2, hpre⟩
          refine ⟨r, (q, s) :: pre, post, by simp [hsplit], h1, h2, ?_⟩
          intro e he
          rcases List.mem_cons.mp he with rfl | he'
          · exact h
          · exact hpre e he'
        · rintro ⟨r, pre, post, hsplit, h1, h2, hpre⟩
          cases pre with
          | nil =>
            simp only [List.nil_append, List.cons.injEq] at hsplit
            obtain ⟨hqp, -⟩ := hsplit
            exact absurd (show containsTime s now by
              rw [show s = r from congrArg Prod.snd hqp]; exact ⟨h1, h2⟩) h
          | cons e pre' =>
            simp only [List.cons_append, List.cons.injEq] at hsplit
            obtain ⟨rfl, htl⟩ := hsplit
            refine ⟨r, pre', post, htl, h1, h2, ?_⟩
            intro e' he'
            exact hpre e' (List.mem_cons_of_mem _ he')

/-- The widget state the evaluation step reads and writes
(`self.current_period`, `self.current_day_idx`). -/
structure SchedulerState where
  current_period : Option Int
  current_day_idx : Option Nat
deriving DecidableEq, Repr

/-- Day-index computation of Widget.update_current_period (widget.py:366):
`today + 1 if 0 <= today <= 4 else None`, where `today` is
`datetime.weekday()` (0 = Monday … 6 = Sunday), so `0 <= today` always
holds. -/
def day_index (today : Nat) : Option Nat :=
  if today ≤ 4 then some (today + 1) else none

/-- Observable outcome of one Widget.update_current_period call: the new
state, the transition signal `prev_period != self.current_period`, and the
list of `NotificationManager.check_notifications(...)` calls made, each
carrying its arguments `(current_period, current_day_idx, timetable_data)`.
`timetable_data` is opaque to the scheduler and carried as a token. -/
structure StepResult where
  state : SchedulerState
  changed : Bool
  notifications : List (Option Int × Option Nat × Nat)
deriving DecidableEq, Repr

/-- Widget.update_current_period (widget.py:360-386): recompute the day
index, recompute the current period via
`SettingsManager.get_current_period(now)`, and — only when the result differs
from the previous one — refresh the styles and call
`check_notifications(current_period, current_day_idx, timetable_data)`. -/
def update_current_period (st : SchedulerState) (now : Nat) (today : Nat)
    (time_ranges : Table) (timetable_data : Nat) : StepResult :=
  let day_idx := day_index today
  let prev_period := st.current_period
  let cur := get_current_period time_ranges now
  let changed := prev_period != cur
  { state := { current_period := cur, current_day_idx := day_idx },
    changed := changed,
    notifications := if changed then [(cur, day_idx, timetable_data)] else [] }

/-- C4. The `changed` signal of an evaluation is true iff the active period
it returns differs from the previous evaluation's result, and re-running the
evaluation with the same time and table immediately afterwards reports no
change (the step is idempotent on its transition signal). -/
theorem c4_changed_iff_differs (st : SchedulerState) (now today : Nat)
    (time_ranges : Table) (timetable_data : Nat) :
    ((update_current_period st now today time_ranges timetable_data).changed = true ↔
      (update_current_period st now today time_ranges timetable_data).state.current_period
        ≠ st.current_period) ∧
    (update_current_period
      (update_current_period st now today time_ranges timetable_data).state
      now today time_ranges timetable_data).changed = false := by
  constructor
  · simp only [update_current_period, bne_iff_ne]
    exact ne_comm
  · simp [update_current_period]

/-- C8 (corrected statement is not needed; this is the claim as stated).
On Saturday and Sunday (weekday index 5 or 6) the day index stored and
reported to the notification dispatcher is `none`, for every time of day;
on Monday through Friday it is the weekday index plus one. -/
theorem c8_weekend_day_index (st : SchedulerState) (now today : Nat)
    (time_ranges : Table) (timetable_data : Nat) :
    (today = 5 ∨ today = 6 →
      (update_current_period st now today time_ranges timetable_data).state.current_day_idx
          = none ∧
      ∀ c ∈ (update_current_period st now today time_ranges timetable_data).notifications,
        c.2.1 = none) ∧
    (today ≤ 4 →
      (update_current_period st now today time_ranges timetable_data).state.current_day_idx
        = some (today + 1)) := by
  constructor
  · intro h
    have hd : day_index today = none := by
      unfold day_index
      rcases h with rfl | rfl <;> simp
    constructor
    · simp [update_current_period, hd]
    · intro c hc
      simp only [update_current_period, hd] at hc
      rcases Decidable.em
          ((st.current_period != get_current_period time_ranges now) = true) with
        hb | hb
      · simp only [if_pos hb, List.mem_singleton] at hc
        simp [hc]
      · simp only [if_neg hb] at hc
        cases hc
  · intro h
    simp [update_current_period, day_index, h]

/-- Witness for C8 at a Sunday (`today = 6`) and a Tuesday (`today = 2`). -/
theorem c8_weekend_day_index_witness :
    (update_current_period ⟨none, none⟩ 0 6 [] 0).state.current_day_idx = none ∧
    (update_current_period ⟨none, none⟩ 0 2 [] 0).state.current_day_idx = some 3 := by
  constructor
  · exact ((c8_weekend_day_index ⟨none, none⟩ 0 6 [] 0).1 (Or.inr rfl)).1
  · exact (c8_weekend_day_index ⟨none, none⟩ 0 2 [] 0).2 (by decide)

/-- C6 counterexample. A scheduled wakeup that finds the same active period
as before (state already `some 1`, `now` still inside period 1) makes no
`check_notifications` call at all: the dispatcher is not invoked on every
evaluation step, only on changed ones. -/
theorem c6_counterexample_no_dispatch_without_change :
    (update_current_period ⟨some 1, some 1⟩ 33000000 0
        [(1, ⟨32400000, 35400000⟩)] 0).changed = false ∧
    (update_current_period ⟨some 1, some 1⟩ 33000000 0
        [(1, ⟨32400000, 35400000⟩)] 0).notifications = [] := by
  decide

/-- C6 amended. The notification dispatcher is invoked with
`(activePeriod, dayIndex, timetableData)` exactly on those evaluations whose
`changed` signal is true — not on every scheduled wakeup. -/
theorem c6_amended_dispatch_iff_changed (st : SchedulerState) (now today : Nat)
    (time_ranges : Table) (timetable_data : Nat) :
    (update_current_period st now today time_ranges timetable_data).notifications =
      (if (update_current_period st now today time_ranges timetable_data).changed then
        [((update_current_period st now today time_ranges timetable_data).state.current_period,
          (update_current_period st now today time_ranges timetable_data).state.current_day_idx,
          timetable_data)]
      else []) := by
  simp [update_current_period]

/-- C9. In the next-wakeup computation, the idle state (`current_period`
`None`) makes period 1 the candidate next period — not the next period whose
start follows `now` — and a current period of 7 (the hard-coded maximum)
yields no next period at all: the start-time and warning blocks contribute
nothing, so the result reduces to the baseline/end-of-period minimum. -/
theorem c9_next_period_idle_and_max (now : Nat) (time_ranges : Table)
    (next_period_warning : Bool) (warning_minutes : Int) :
    next_period_of none = some 1 ∧
    next_period_of (some 7) = none ∧
    start_rem now time_ranges (some 7) = none ∧
    warn_rem now time_ranges (some 7) next_period_warning warning_minutes = none ∧
    set_next_update_timer now time_ranges (some 7) next_period_warning warning_minutes =
      min (match end_rem now time_ranges (some 7) with
           | some d => if d > 0 then min 60000 (d + 1000) else 60000
           | none => (60000 : Int)) 600000 := by
  have h7 : next_period_of (some 7) = none := by simp [next_period_of]
  refine ⟨by simp [next_period_of], h7, ?_, ?_, ?_⟩
  · unfold start_rem
    rw [h7]
  · unfold warn_rem
    rw [h7]
  · unfold set_next_update_timer next_update_pre
    rw [show start_rem now time_ranges (some 7) = none by unfold start_rem; rw [h7]]
    rw [show warn_rem now time_ranges (some 7) next_period_warning warning_minutes = none by
      unfold warn_rem; rw [h7]]
    cases end_rem now time_ranges (some 7) <;> rfl

/-- The claim's "next period": `currentPeriod + 1`, bounded by the maximum
defined period id (7, the widget's period ids being 1..7); in the idle state
the candidate next period is period 1 (claim C9). -/
def spec_next_period (current_period : Option Int) : Option Int :=
  match current_period with
  | none => some 1
  | some p => if p + 1 ≤ 7 then some (p + 1) else none

/-- The claim's candidate list for the next-wakeup minimum (C2): time to the
current period's end plus 1000 ms; time to the next period's defined start
plus 1000 ms; and, when the next-period warning is enabled, time to the
warning threshold (`start − warningMinutes`, on the wrapping time-of-day
clock) plus 500 ms. -/
def spec_delay_candidates (now : Nat) (time_ranges : Table)
    (current_period : Option Int) (next_period_warning : Bool)
    (warning_minutes : Int) : List Int :=
  (match current_period with
   | some p =>
     match time_ranges.lookup p with
     | some r => [msecsTo now r.endT + 1000]
     | none => []
   | none => []) ++
  (match spec_next_period current_period with
   | some q =>
     match time_ranges.lookup q with
     | some r => [msecsTo now r.startT + 1000]
     | none => []
   | none => []) ++
  (match spec_next_period current_period with
   | some q =>
     if next_period_warning then
       match time_ranges.lookup q with
       | some r => [msecsTo now (addSecs r.startT (-(warning_minutes * 60))) + 500]
       | none => []
     else []
   | none => [])

/-- The claim's delay formula (C2): the minimum of the 60000 ms baseline and
the applicable candidates. -/
def spec_delay (now : Nat) (time_ranges : Table) (current_period : Option Int)
    (next_period_warning : Bool) (warning_minutes : Int) : Int :=
  List.foldl min 60000
    (spec_delay_candidates now time_ranges current_period next_period_warning
      warning_minutes)
/-- Property that the current period lies in the program's data model": `none` or an id in
1..7 (spec section 3: period ids are 1..7). -/
def cp_in_range (current_period : Option Int) : Prop :=
  match current_period with
  | none => True
  | some p => 1 ≤ p ∧ p ≤ 7

instance (cp : Option Int) : Decidable (cp_in_range cp) :=
  match cp with
  | none => inferInstanceAs (Decidable True)
  | some _ => inferInstanceAs (Decidable (_ ∧ _))

/-- A reachable remaining time is strictly positive (trivially true when the
block was not reached). -/
def pos_opt (o : Option Int) : Prop :=
  match o with
  | none => True
  | some d => 0 < d

instance (o : Option Int) : Decidable (pos_opt o) :=
  match o with
  | none => inferInstanceAs (Decidable True)
  | some _ => inferInstanceAs (Decidable (_ < _))

/-- The candidate-duration list contributed by one optional remaining time
and its margin. -/
def opt_cand (o : Option Int) (margin : Int) : List Int :=
  match o with
  | none => []
  | some d => [d + margin]

theorem next_period_of_in_range (current_period : Option Int)
    (hcp : cp_in_range current_period) :
    next_period_of current_period = spec_next_period current_period := by
  rcases current_period with - | p
  · simp [next_period_of, spec_next_period]
  · obtain ⟨h1, h2⟩ := hcp
    unfold next_period_of spec_next_period
    by_cases h7 : p = 7
    · subst h7; simp
    · have hle : p + 1 ≤ 7 := by omega
      have hne : (some p : Option Int) ≠ some 7 := by simp [h7]
      simp [hne, hle]

theorem spec_next_period_in_range (current_period : Option Int)
    (hcp : cp_in_range current_period) :
    cp_in_range (spec_next_period current_period) := by
  rcases current_period with - | p
  · exact ⟨le_refl 1, by norm_num⟩
  · obtain ⟨h1, h2⟩ := hcp
    by_cases hle : p + 1 ≤ 7
    · simp only [spec_next_period, if_pos hle]
      exact ⟨by omega, hle⟩
    · simp only [spec_next_period, if_neg hle]
      trivial

theorem end_rem_in_range (now : Nat) (time_ranges : Table)
    (current_period : Option Int) (hcp : cp_in_range current_period) :
    end_rem now time_ranges current_period =
      current_period.bind
        (fun p => (time_ranges.lookup p).map (fun r => msecsTo now r.endT)) := by
  rcases current_period with - | p
  · rfl
  · obtain ⟨h1, -⟩ := hcp
    simp only [end_rem, Option.some_bind]
    rw [if_neg (by omega : ¬ p = 0)]
    cases time_ranges.lookup p <;> rfl

theorem start_rem_in_range (now : Nat) (time_ranges : Table)
    (current_period : Option Int) (hcp : cp_in_range current_period) :
    start_rem now time_ranges current_period =
      (spec_next_period current_period).bind
        (fun q => (time_ranges.lookup q).map (fun r => msecsTo now r.startT)) := by
  simp only [start_rem]
  rw [next_period_of_in_range current_period hcp]
  have hq := spec_next_period_in_range current_period hcp
  rcases hnp : spec_next_period current_period with - | q
  · rfl
  · rw [hnp] at hq
    obtain ⟨hqa, hqb⟩ := hq
    simp only [Option.some_bind, hqa, hqb, and_self, if_true]
    cases time_ranges.lookup q <;> rfl

theorem warn_rem_in_range (now : Nat) (time_ranges : Table)
    (current_period : Option Int) (next_period_warning : Bool)
    (warning_minutes : Int) (hcp : cp_in_range current_period) :
    warn_rem now time_ranges current_period next_period_warning warning_minutes =
      (spec_next_period current_period).bind
        (fun q =>
          if next_period_warning then
            (time_ranges.lookup q).map
              (fun r => msecsTo now (addSecs r.startT (-(warning_minutes * 60))))
          else none) := by
  simp only [warn_rem]
  rw [next_period_of_in_range current_period hcp]
  have hq := spec_next_period_in_range current_period hcp
  rcases hnp : spec_next_period current_period with - | q
  · rfl
  · rw [hnp] at hq
    obtain ⟨hqa, hqb⟩ := hq
    have hq0 : ¬ q = 0 := by omega
    cases next_period_warning with
    | false => simp
    | true =>
      simp only [Option.some_bind, ne_eq, hq0, not_false_eq_true, true_and, if_true]
      cases time_ranges.lookup q <;> rfl

theorem spec_candidates_from_rems (now : Nat) (time_ranges : Table)
    (current_period : Option Int) (next_period_warning : Bool)
    (warning_minutes : Int) (hcp : cp_in_range current_period) :
    spec_delay_candidates now time_ranges current_period next_period_warning
        warning_minutes =
      opt_cand (end_rem now time_ranges current_period) 1000 ++
      opt_cand (start_rem now time_ranges current_period) 1000 ++
      opt_cand (warn_rem now time_ranges current_period next_period_warning
        warning_minutes) 500 := by
  rw [end_rem_in_range now time_ranges current_period hcp,
    start_rem_in_range now time_ranges current_period hcp,
    warn_rem_in_range now time_ranges current_period next_period_warning
      warning_minutes hcp]
  unfold spec_delay_candidates
  congr 1
  · congr 1
    · rcases current_period with - | p
      · rfl
      · cases hL : time_ranges.lookup p with
        | none => simp [hL, opt_cand]
        | some r => simp [hL, opt_cand]
    · rcases hnp : spec_next_period current_period with - | q
      · rfl
      · cases hL : time_ranges.lookup q with
        | none => simp [hL, opt_cand]
        | some r => simp [hL, opt_cand]
  · rcases hnp : spec_next_period current_period with - | q
    · rfl
    · cases next_period_warning with
      | false => simp [opt_cand]
      | true =>
        cases hL : time_ranges.lookup q with
        | none => simp [hL, opt_cand]
        | some r => simp [hL, opt_cand]

theorem pre_from_clamp_eq_foldl (e s w : Option Int)
    (he : pos_opt e) (hs : pos_opt s) (hw : pos_opt w) :
    min (pre_from e s w) 600000 =
      List.foldl min 60000
        (opt_cand e 1000 ++ opt_cand s 1000 ++ opt_cand w 500) := by
  rcases e with - | d1 <;> rcases s with - | d2 <;> rcases w with - | d3 <;>
    simp_all [pre_from, opt_cand, pos_opt, List.foldl]

/-- C2. For a current period inside the program's data model (`none` or an id
in 1..7) and whenever every reachable boundary still lies strictly in the
future, the computed next-wakeup delay equals the minimum of the 60000 ms
baseline, the time to the current period's end + 1000 ms, the time to the
next period's defined start + 1000 ms, and — warning enabled — the time to
the warning threshold + 500 ms.  The witness shows the claim's instance: a
current period ending 30 s after `now` gives 31000 ms. -/
theorem c2_delay_is_min_of_candidates (now : Nat) (time_ranges : Table)
    (current_period : Option Int) (next_period_warning : Bool)
    (warning_minutes : Int)
    (hcp : cp_in_range current_period)
    (hend : pos_opt (end_rem now time_ranges current_period))
    (hstart : pos_opt (start_rem now time_ranges current_period))
    (hwarn : pos_opt (warn_rem now time_ranges current_period
      next_period_warning warning_minutes)) :
    set_next_update_timer now time_ranges current_period next_period_warning
        warning_minutes =
      spec_delay now time_ranges current_period next_period_warning
        warning_minutes := by
  unfold set_next_update_timer next_update_pre spec_delay
  rw [pre_from_clamp_eq_foldl _ _ _ hend hstart hwarn,
    spec_candidates_from_rems now time_ranges current_period
      next_period_warning warning_minutes hcp]

/-- Witness for C2: table 1: 09:00-09:50, 2: 10:00-10:50, `now` = 09:49:30,
current period 1, warning 5 minutes before the next period.  All remaining
times are positive and the delay is 30000 + 1000 = 31000 ms. -/
theorem c2_delay_is_min_of_candidates_witness :
    (cp_in_range (some 1) ∧
      pos_opt (end_rem 35370000
        [(1, ⟨32400000, 35400000⟩), (2, ⟨36000000, 39000000⟩)] (some 1)) ∧
      pos_opt (start_rem 35370000
        [(1, ⟨32400000, 35400000⟩), (2, ⟨36000000, 39000000⟩)] (some 1)) ∧
      pos_opt (warn_rem 35370000
        [(1, ⟨32400000, 35400000⟩), (2, ⟨36000000, 39000000⟩)] (some 1) true 5)) ∧
    set_next_update_timer 35370000
      [(1, ⟨32400000, 35400000⟩), (2, ⟨36000000, 39000000⟩)] (some 1) true 5 =
      31000 := by
  constructor
  · exact ⟨by decide, by decide, by decide, by decide⟩
  · exact (c2_delay_is_min_of_candidates 35370000
      [(1, ⟨32400000, 35400000⟩), (2, ⟨36000000, 39000000⟩)] (some 1) true 5
      (by decide) (by decide) (by decide) (by decide)).trans (by decide)

/-- The (remaining time, margin) pair contributed by one optional reachable
remaining time. -/
def opt_rem (o : Option Int) (margin : Int) : List (Int × Int) :=
  match o with
  | none => []
  | some d => [(d, margin)]

/-- The (remaining, margin) pairs of the three reachable candidates of
widget.py:393-418, in block order. -/
def candidate_rems (now : Nat) (time_ranges : Table) (current_period : Option Int)
    (next_period_warning : Bool) (warning_minutes : Int) : List (Int × Int) :=
  opt_rem (end_rem now time_ranges current_period) 1000 ++
  opt_rem (start_rem now time_ranges current_period) 1000 ++
  opt_rem (warn_rem now time_ranges current_period next_period_warning
    warning_minutes) 500

/-- The delay as the claim C5 states it: a reachable candidate enters the
minimum iff its resulting duration (remaining + margin) is strictly
positive. -/
def duration_filtered_delay (now : Nat) (time_ranges : Table)
    (current_period : Option Int) (next_period_warning : Bool)
    (warning_minutes : Int) : Int :=
  min (List.foldl (fun acc c => min acc (c.1 + c.2)) 60000
    ((candidate_rems now time_ranges current_period next_period_warning
        warning_minutes).filter (fun c => decide (0 < c.1 + c.2)))) 600000

/-- The delay with the code's actual filtering rule: a reachable candidate
enters the minimum iff its remaining time (before the margin is added) is
strictly positive. -/
def rem_filtered_delay (now : Nat) (time_ranges : Table)
    (current_period : Option Int) (next_period_warning : Bool)
    (warning_minutes : Int) : Int :=
  min (List.foldl (fun acc c => min acc (c.1 + c.2)) 60000
    ((candidate_rems now time_ranges current_period next_period_warning
        warning_minutes).filter (fun c => decide (0 < c.1)))) 600000

/-- One block of the sequential accumulation, as a function of the incoming
accumulator. -/
def step_min_acc (acc : Int) (o : Option Int) (margin : Int) : Int :=
  match o with
  | some d => if d > 0 then min acc (d + margin) else acc
  | none => acc

theorem step_min_acc_eq_foldl (acc : Int) (o : Option Int) (margin : Int) :
    step_min_acc acc o margin =
      List.foldl (fun a c => min a (c.1 + c.2)) acc
        ((opt_rem o margin).filter (fun c => decide (0 < c.1))) := by
  rcases o with - | d
  · rfl
  · by_cases h : (0 : Int) < d
    · simp [step_min_acc, opt_rem, List.filter, List.foldl, h]
    · simp [step_min_acc, opt_rem, List.filter, List.foldl, h]

theorem pre_from_eq_filtered_foldl (e s w : Option Int) :
    pre_from e s w =
      List.foldl (fun a c => min a (c.1 + c.2)) 60000
        ((opt_rem e 1000 ++ opt_rem s 1000 ++ opt_rem w 500).filter
          (fun c => decide (0 < c.1))) := by
  have hsteps : pre_from e s w =
      step_min_acc (step_min_acc (step_min_acc 60000 e 1000) s 1000) w 500 := rfl
  rw [hsteps, List.filter_append, List.filter_append, List.foldl_append,
    List.foldl_append, step_min_acc_eq_foldl, step_min_acc_eq_foldl,
    step_min_acc_eq_foldl]

/-- C5 counterexample.  Table: period 1 = 09:00-09:50; `now` = 09:50:00.500,
current period still 1, warning off.  The end-of-period candidate has
remaining time −500 ms, so its resulting duration 500 ms is strictly
positive; the claim's rule would include it and yield 500 ms, but the code
filters on the remaining time and yields the 60000 ms baseline. -/
theorem c5_counterexample_positive_duration_excluded :
    set_next_update_timer 35400500 [(1, ⟨32400000, 35400000⟩)] (some 1) false 5
        = 60000 ∧
    duration_filtered_delay 35400500 [(1, ⟨32400000, 35400000⟩)] (some 1) false 5
        = 500 := by
  decide

/-- C5 amended.  A reachable candidate is included in the minimum iff its
remaining time — before its margin is added — is strictly positive; a
candidate whose boundary has already passed is excluded even when its
remaining time plus margin is still positive. -/
theorem c5_amended_included_iff_remaining_positive (now : Nat)
    (time_ranges : Table) (current_period : Option Int)
    (next_period_warning : Bool) (warning_minutes : Int) :
    set_next_update_timer now time_ranges current_period next_period_warning
        warning_minutes =
      rem_filtered_delay now time_ranges current_period next_period_warning
        warning_minutes := by
  unfold set_next_update_timer next_update_pre rem_filtered_delay candidate_rems
  rw [pre_from_eq_filtered_foldl]

/-!
Persistence of the schedule table (settings_manager.py:218-256).

Python string primitives are modelled structurally over `String.data` so the
kernel can evaluate them: `py_int` models `int(s)` on the spellings this
program produces (an optional minus sign followed by decimal digits; other
Python spellings such as surrounding whitespace do not occur in data the
program writes), `py_split_colon` models `s.split(':')`, `py_str_nat` /
`py_str_int` model `str(n)`, and `to_hh_mm` models
`QTime.toString("HH:mm")` on a valid time.
-/

/-- A decimal digit's value, else `none`. -/
def py_digit (c : Char) : Option Nat :=
  if '0' ≤ c ∧ c ≤ '9' then some (c.toNat - '0'.toNat) else none

def py_nat_of_chars_aux : List Char → Nat → Option Nat
  | [], acc => some acc
  | c :: cs, acc =>
    match py_digit c with
    | some d => py_nat_of_chars_aux cs (acc * 10 + d)
    | none => none

/-- A non-empty all-digit character list as a number, else `none`. -/
def py_nat_of_chars : List Char → Option Nat
  | [] => none
  | cs => py_nat_of_chars_aux cs 0

def py_int_of_chars (cs : List Char) : Option Int :=
  match cs with
  | '-' :: rest => (py_nat_of_chars rest).map (fun n => -(n : Int))
  | _ => (py_nat_of_chars cs).map (fun n => (n : Int))

/-- Python `int(s)`; `none` models the `ValueError` raised on a
non-numeric string. -/
def py_int (s : String) : Option Int := py_int_of_chars s.data

def splitCharsOnColon : List Char → List (List Char)
  | [] => [[]]
  | c :: cs =>
    let r := splitCharsOnColon cs
    if c = ':' then [] :: r
    else match r with
      | [] => [[c]]
      | h :: t => (c :: h) :: t

/-- Python `s.split(':')`. -/
def py_split_colon (s : String) : List String :=
  (splitCharsOnColon s.data).map String.mk

/-- Model of `start_hour, start_min = map(int, time_range["start"].split(':'))`
(settings_manager.py:229-230): succeeds only on exactly two int-parsable
colon-separated fields; any other shape raises (modelled `none`). -/
def parse_hm (s : String) : Option (Int × Int) :=
  match (py_split_colon s).map py_int with
  | [some h, some m] => some (h, m)
  | _ => none

/-- Model of `QtCore.QTime(h, m)` in milliseconds since midnight, for the in-range
arguments (0 ≤ h ≤ 23, 0 ≤ m ≤ 59) this program produces. -/
def qtime (h m : Int) : Nat := (h * 3600000 + m * 60000).toNat

/-- Python dict assignment `d[k] = v`: replaces the value in place when the
key exists, appends otherwise. -/
def dict_set (l : Table) (k : Int) (v : TimeRange) : Table :=
  match l with
  | [] => [(k, v)]
  | (k0, v0) :: rest =>
    if k0 = k then (k, v) :: rest else (k0, v0) :: dict_set rest k v

/-- One raw entry of the persisted time-settings JSON: the period key and the
`"start"` / `"end"` strings, in file order. -/
abbrev RawEntry := String × String × String

/-- The `for period, time_range in time_settings.items():` loop of
SettingsManager.load_time_settings (settings_manager.py:227-235), applied to
the file's entries in order.  A parse failure of any entry raises, aborting
the loop; the mutations already made are kept (the exception is caught by
the surrounding `except`). -/
def load_entries : List RawEntry → Table → Table
  | [], time_ranges => time_ranges
  | (pk, ss, es) :: rest, time_ranges =>
    match py_int pk, parse_hm ss, parse_hm es with
    | some period, some s, some en =>
      load_entries rest
        (dict_set time_ranges period ⟨qtime s.1 s.2, qtime en.1 en.2⟩)
    | _, _, _ => time_ranges

/-- SettingsManager.load_time_settings (settings_manager.py:218-237).
`file` is `none` when the settings file is missing or `json.load` raised
(malformed JSON); otherwise it is the parsed object's entries in order.
Every exception is caught, so the function always returns a table. -/
def load_time_settings (file : Option (List RawEntry)) (time_ranges : Table) :
    Table :=
  match file with
  | none => time_ranges
  | some entries => load_entries entries time_ranges

/-- Whether every parse step of one entry succeeds. -/
def entry_ok (en : RawEntry) : Bool :=
  (py_int en.1).isSome && (parse_hm en.2.1).isSome && (parse_hm en.2.2).isSome

/-- Two-digit zero-padded decimal field of `QTime.toString("HH:mm")` (both
fields of a valid QTime are < 100). -/
def fmt2 (n : Nat) : String :=
  String.mk (if n < 10 then ['0', Char.ofNat (48 + n)]
    else [Char.ofNat (48 + n / 10), Char.ofNat (48 + n % 10)])

/-- Model of `QTime.toString("HH:mm")` on a valid time in milliseconds since
midnight. -/
def to_hh_mm (t : Nat) : String :=
  String.mk ((fmt2 (t / 3600000)).data ++ ':' :: (fmt2 (t % 3600000 / 60000)).data)

def nat_to_chars_aux : Nat → Nat → List Char
  | 0, _ => []
  | _ + 1, 0 => []
  | fuel + 1, n => nat_to_chars_aux fuel (n / 10) ++ [Char.ofNat (48 + n % 10)]

/-- Python `str(n)` for a natural number. -/
def py_str_nat (n : Nat) : String :=
  if n = 0 then "0" else String.mk (nat_to_chars_aux n n)

/-- Python `str(period)` (settings_manager.py:247). -/
def py_str_int (p : Int) : String :=
  if p < 0 then String.mk ('-' :: (py_str_nat p.natAbs).data) else py_str_nat p.natAbs

/-- SettingsManager.save_time_settings (settings_manager.py:239-256): the
JSON object written is
`{str(period): {"start": start.toString("HH:mm"), "end": end.toString("HH:mm")}}`
in table iteration order. -/
def save_time_settings (time_ranges : Table) : List RawEntry :=
  time_ranges.map
    (fun en => (py_str_int en.1, to_hh_mm en.2.startT, to_hh_mm en.2.endT))

/-- C7 counterexample.  The in-memory table holds period 1 = 09:00-09:50.
The file's first entry (period 1, 08:00-08:45) is well-formed, its second
entry has the malformed start `"xx:00"`.  The load fails at the second entry,
yet the table has already been changed: the claim that a failed load leaves
the table exactly as it was (atomic replacement or nothing) is false. -/
theorem c7_counterexample_partial_update :
    parse_hm "xx:00" = none ∧
    load_time_settings (some [("1", "08:00", "08:45"), ("2", "xx:00", "09:00")])
        [(1, ⟨32400000, 35400000⟩)] = [(1, ⟨28800000, 31500000⟩)] ∧
    ([(1, (⟨28800000, 31500000⟩ : TimeRange))] : Table) ≠
      [(1, ⟨32400000, 35400000⟩)] := by
  decide

/-- C7 amended.  A missing file or malformed JSON leaves the table exactly
unchanged, and no exception propagates (the function is total); but a
malformed period entry only aborts the loop at that entry: the entries
before it have already been applied (a partial, non-atomic update) and the
entries after it are ignored. -/
theorem c7_amended_load_aborts_keeping_prior (tbl : Table)
    (pre : List RawEntry) (en : RawEntry) (rest : List RawEntry)
    (hbad : entry_ok en = false) :
    load_time_settings none tbl = tbl ∧
    load_time_settings (some (pre ++ en :: rest)) tbl = load_entries pre tbl := by
  refine ⟨rfl, ?_⟩
  show load_entries (pre ++ en :: rest) tbl = load_entries pre tbl
  induction pre generalizing tbl with
  | nil =>
    obtain ⟨pk, ss, es⟩ := en
    simp only [List.nil_append, load_entries]
    cases h1 : py_int pk with
    | none => simp [load_entries, h1]
    | some p =>
      cases h2 : parse_hm ss with
      | none => simp [load_entries, h1, h2]
      | some sp =>
        cases h3 : parse_hm es with
        | none => simp [load_entries, h1, h2, h3]
        | some ep => simp [entry_ok, h1, h2, h3] at hbad
  | cons a pre ih =>
    obtain ⟨pk, ss, es⟩ := a
    cases h1 : py_int pk with
    | none => simp [load_entries, h1]
    | some p =>
      cases h2 : parse_hm ss with
      | none => simp [load_entries, h1, h2]
      | some sp =>
        cases h3 : parse_hm es with
        | none => simp [load_entries, h1, h2, h3]
        | some ep =>
          simp only [List.cons_append, load_entries, h1, h2, h3]
          exact ih _

/-- Witness for the amended C7 at the counterexample's concrete input. -/
theorem c7_amended_load_aborts_keeping_prior_witness :
    entry_ok ("2", "xx:00", "09:00") = false ∧
    load_time_settings
        (some ([("1", "08:00", "08:45")] ++ ("2", "xx:00", "09:00") :: []))
        [(1, ⟨32400000, 35400000⟩)] =
      load_entries [("1", "08:00", "08:45")] [(1, ⟨32400000, 35400000⟩)] :=
  ⟨by decide,
    (c7_amended_load_aborts_keeping_prior [(1, ⟨32400000, 35400000⟩)]
      [("1", "08:00", "08:45")] ("2", "xx:00", "09:00") [] (by decide)).2⟩

theorem int_round_aux : ∀ n : Nat, n < 100 →
    py_int (py_str_int (Int.ofNat n)) = some (Int.ofNat n) := by decide

set_option maxHeartbeats 1000000 in
theorem hm_round : ∀ h : Nat, h < 24 → ∀ m : Nat, m < 60 →
    parse_hm (to_hh_mm (h * 3600000 + m * 60000)) = some ((h : Int), (m : Int)) := by
  decide

theorem to_hh_mm_parses (t : Nat) (hlt : t < 86400000) (hmod : t % 60000 = 0) :
    parse_hm (to_hh_mm t) =
      some (((t / 3600000 : Nat) : Int), ((t % 3600000 / 60000 : Nat) : Int)) := by
  have h1 : t / 3600000 < 24 := by omega
  have h2 : t % 3600000 / 60000 < 60 := by omega
  have ht : (t / 3600000) * 3600000 + (t % 3600000 / 60000) * 60000 = t := by omega
  have hr := hm_round (t / 3600000) h1 (t % 3600000 / 60000) h2
  rw [ht] at hr
  exact hr

theorem qtime_back (t : Nat) (hlt : t < 86400000) (hmod : t % 60000 = 0) :
    qtime ((t / 3600000 : Nat) : Int) ((t % 3600000 / 60000 : Nat) : Int) = t := by
  unfold qtime
  omega

theorem dict_set_mem_self (tbl : Table) (p : Int) (r : TimeRange)
    (hmem : (p, r) ∈ tbl) (hnodup : (tbl.map Prod.fst).Nodup) :
    dict_set tbl p r = tbl := by
  induction tbl with
  | nil => cases hmem
  | cons a tl ih =>
    obtain ⟨k, v⟩ := a
    simp only [dict_set]
    by_cases hk : k = p
    · subst hk
      rw [if_pos rfl]
      rcases List.mem_cons.mp hmem with heq | hmem2
      · have hrv : r = v := by
          have := heq
          simp only [Prod.mk.injEq] at this
          exact this.2
        rw [hrv]
      · exfalso
        have hk2 : k ∈ tl.map Prod.fst := by
          exact List.mem_map.mpr ⟨(k, r), hmem2, rfl⟩
        simp only [List.map_cons, List.nodup_cons] at hnodup
        exact hnodup.1 hk2
    · rw [if_neg hk]
      have hmem2 : (p, r) ∈ tl := by
        rcases List.mem_cons.mp hmem with heq | h2
        · exfalso
          apply hk
          simp only [Prod.mk.injEq] at heq
          exact heq.1.symm
        · exact h2
      have hnd2 : (tl.map Prod.fst).Nodup := by
        simp only [List.map_cons, List.nodup_cons] at hnodup
        exact hnodup.2
      rw [ih hmem2 hnd2]

theorem load_entries_save (sub tbl : Table)
    (hsub : ∀ x ∈ sub, x ∈ tbl)
    (hnodup : (tbl.map Prod.fst).Nodup)
    (hkey : ∀ x ∈ sub, 0 ≤ x.1 ∧ x.1 < 100)
    (htimes : ∀ x ∈ sub, x.2.startT % 60000 = 0 ∧ x.2.startT < 86400000 ∧
      x.2.endT % 60000 = 0 ∧ x.2.endT < 86400000) :
    load_entries (save_time_settings sub) tbl = tbl := by
  induction sub with
  | nil => rfl
  | cons a tl ih =>
    obtain ⟨p, r⟩ := a
    obtain ⟨hp0, hp100⟩ := hkey (p, r) (by simp)
    obtain ⟨hs1, hs2, he1, he2⟩ := htimes (p, r) (by simp)
    have hpk : py_int (py_str_int p) = some p := by
      obtain ⟨n, rfl⟩ := Int.eq_ofNat_of_zero_le hp0
      have hp2 : (n : Int) < 100 := hp100
      exact int_round_aux n (by exact_mod_cast hp2)
    have hss := to_hh_mm_parses r.startT hs2 hs1
    have hes := to_hh_mm_parses r.endT he2 he1
    simp only [save_time_settings, List.map_cons, load_entries, hpk, hss, hes]
    rw [qtime_back r.startT hs2 hs1, qtime_back r.endT he2 he1]
    have hmk : (⟨r.startT, r.endT⟩ : TimeRange) = r := rfl
    rw [hmk]
    rw [dict_set_mem_self tbl p r (hsub (p, r) (by simp)) hnodup]
    exact ih (fun x hx => hsub x (List.mem_cons_of_mem _ hx))
      (fun x hx => hkey x (List.mem_cons_of_mem _ hx))
      (fun x hx => htimes x (List.mem_cons_of_mem _ hx))

/-- C10. For every table whose keys are distinct (a Python dict) and within
the ids the program uses, and whose times have minute granularity (as
constructed everywhere in the program, with zero seconds), saving the
time settings and loading the result back restores exactly the same table:
the round trip through the `str(period)` / `"HH:mm"` JSON encoding is the
identity. -/
theorem c10_save_load_round_trip (tbl : Table)
    (hnodup : (tbl.map Prod.fst).Nodup)
    (hkey : ∀ x ∈ tbl, 0 ≤ x.1 ∧ x.1 < 100)
    (htimes : ∀ x ∈ tbl, x.2.startT % 60000 = 0 ∧ x.2.startT < 86400000 ∧
      x.2.endT % 60000 = 0 ∧ x.2.endT < 86400000) :
    load_time_settings (some (save_time_settings tbl)) tbl = tbl :=
  load_entries_save tbl tbl (fun _ hx => hx) hnodup hkey htimes

/-- Witness for C10 at a concrete two-period table (09:00-09:50 and
10:00-10:50). -/
theorem c10_save_load_round_trip_witness :
    (([(1, (⟨32400000, 35400000⟩ : TimeRange)), (2, ⟨36000000, 39000000⟩)] :
        Table).map Prod.fst).Nodup ∧
    load_time_settings
        (some (save_time_settings
          [(1, ⟨32400000, 35400000⟩), (2, ⟨36000000, 39000000⟩)]))
        [(1, ⟨32400000, 35400000⟩), (2, ⟨36000000, 39000000⟩)] =
      [(1, ⟨32400000, 35400000⟩), (2, ⟨36000000, 39000000⟩)] :=
  ⟨by decide,
    c10_save_load_round_trip
      [(1, ⟨32400000, 35400000⟩), (2, ⟨36000000, 39000000⟩)]
      (by decide) (by decide) (by decide)⟩

end Timetable
